import Mathlib

/-!
Shallow embedding of the audio pipeline of `onboard-ai`:
the capture codec (`src/lib/audio-recorder.ts`, `AudioRecorderProcessor._convertToInt16`),
the playback decoder and scheduler (`src/lib/analytics/analytics-service.ts`, `AudioStreamer`),
the capture bridge state machine (`src/lib/audio-recorder.ts`, `AudioRecorder`),
and the base64 decoding utility (`src/lib/audio-utils.ts`, `base64ToArrayBuffer`).

Machine floats are modelled as rationals; all arithmetic appearing in the
source (clamping, scaling by 32767/32768, truncation to Int16, division
by 32768) is exact at the inputs the theorems use, so the rational model
agrees with the IEEE semantics of the source there.
-/

namespace Onboard

/-! ### Codec -/

/-- Clamping from `_convertToInt16`: `Math.max(-1, Math.min(1, x))`. -/
def clamp (x : ℚ) : ℚ := max (-1) (min 1 x)

/-- Truncation toward zero, the conversion JavaScript applies when a number
is stored into an `Int16Array` element (ToInt16 without wrap, since all
stored values are in range here). -/
def truncQ (q : ℚ) : ℤ := if 0 ≤ q then ⌊q⌋ else -⌊-q⌋

/-- One sample of `AudioRecorderProcessor._convertToInt16`
(src/lib/audio-recorder.ts): clamp to [-1, 1], scale negatives by
0x8000 = 32768 and non-negatives by 0x7fff = 32767, store into Int16. -/
def floatToInt16 (x : ℚ) : ℤ :=
  if clamp x < 0 then truncQ (clamp x * 32768) else truncQ (clamp x * 32767)

/-- One sample of `AudioStreamer._processPCM16Chunk`
(src/lib/analytics/analytics-service.ts): `int16 / 32768`. -/
def int16ToFloat (n : ℤ) : ℚ := (n : ℚ) / 32768

/-- Capture codec followed by playback codec on one sample. -/
def roundTripSample (x : ℚ) : ℚ := int16ToFloat (floatToInt16 x)

/-! ### Playback scheduler (`AudioStreamer`, src/lib/analytics/analytics-service.ts)

Constants from the source: `sampleRate = 24000`, `bufferSize = 7680`,
`initialBufferTime = 0.1`, `SCHEDULE_AHEAD_TIME = 0.2`, `maxRetries = 3`.
Audio-clock instants are rationals. A scheduled buffer records the samples
handed to `source.start` and the chosen start time. -/

def sampleRate : ℚ := 24000

def bufferSize : ℕ := 7680

def initialBufferTime : ℚ := 1/10

def scheduleAheadTime : ℚ := 1/5

def maxRetries : ℕ := 3

/-- Little-endian signed 16-bit read, `DataView.getInt16(2*i, true)`. -/
def int16OfBytes (lo hi : ℕ) : ℤ :=
  if lo % 256 + 256 * (hi % 256) < 32768 then ((lo % 256 + 256 * (hi % 256) : ℕ) : ℤ)
  else ((lo % 256 + 256 * (hi % 256) : ℕ) : ℤ) - 65536

/-- `AudioStreamer._processPCM16Chunk`: decode a little-endian PCM16 byte
sequence into normalized floats, each sample divided by 32768. In the
source an odd-length chunk throws (`new Float32Array(len/2)` with a
fractional length); theorems about it carry an even-length hypothesis. -/
def pcmToFloats : List ℕ → List ℚ
  | lo :: hi :: rest => int16ToFloat (int16OfBytes lo hi) :: pcmToFloats rest
  | _ => []

/-- The frame splitting of `addPCM16`: slices of `bufferSize` samples while
enough remain, and any nonempty remainder as one short frame. -/
def chunkFrames (buf : List ℚ) : List (List ℚ) :=
  if _h : bufferSize ≤ buf.length then
    buf.take bufferSize :: chunkFrames (buf.drop bufferSize)
  else if 0 < buf.length then [buf] else []
termination_by buf.length
decreasing_by
  simp only [List.length_drop]
  have : 0 < bufferSize := by norm_num [bufferSize]
  omega

/-- A buffer handed to `source.start(startTime)`. -/
structure SchedBuffer where
  samples : List ℚ
  startTime : ℚ
deriving DecidableEq, Repr

/-- Mutable state of `AudioStreamer` relevant to queueing and scheduling. -/
structure StreamerState where
  audioQueue : List (List ℚ)
  isPlaying : Bool
  isStreamComplete : Bool
  checkInterval : Bool
  scheduledTime : ℚ
  retryCount : ℕ
deriving DecidableEq, Repr

/-- The fresh streamer: empty queue, not playing, clock at zero. -/
def initStreamer : StreamerState :=
  { audioQueue := [], isPlaying := false, isStreamComplete := false,
    checkInterval := false, scheduledTime := 0, retryCount := 0 }

/-- Result of the `while` loop of `scheduleNextBuffer`: buffers started,
frames still queued, and the advanced scheduled clock. -/
structure SchedResult where
  played : List SchedBuffer
  queue : List (List ℚ)
  sched : ℚ
deriving DecidableEq, Repr

/-- `audioBuffer.duration` of a mono frame at the playback sample rate. -/
def frameDuration (f : List ℚ) : ℚ := (f.length : ℚ) / sampleRate

/-- The `while` loop of `scheduleNextBuffer`. The source re-reads
`this.context.currentTime` on every iteration, so the model takes the clock
as a function of the iteration index: while the queue is nonempty and
`scheduledTime < clock + SCHEDULE_AHEAD_TIME`, pop one frame, start it at
`max(scheduledTime, clock)` and advance the scheduled clock by its duration. -/
def schedLoop (clock : ℕ → ℚ) : ℕ → List (List ℚ) → ℚ → SchedResult
  | _, [], t => ⟨[], [], t⟩
  | i, f :: rest, t =>
    if t < clock i + scheduleAheadTime then
      let st := max t (clock i)
      let r := schedLoop clock (i + 1) rest (st + frameDuration f)
      ⟨⟨f, st⟩ :: r.played, r.queue, r.sched⟩
    else ⟨[], f :: rest, t⟩

/-- `AudioStreamer.scheduleNextBuffer` at one clock reading `now`: run the
loop, then maintain the polling interval exactly as the source does (queue
empty and stream complete: stop playing and clear the interval; queue empty
and stream incomplete: arm the 100 ms polling interval; queue nonempty: a
one-shot timeout re-invokes the loop later). -/
def scheduleNextBuffer (now : ℚ) (s : StreamerState) : List SchedBuffer × StreamerState :=
  let r := schedLoop (fun _ => now) 0 s.audioQueue s.scheduledTime
  let s1 := { s with audioQueue := r.queue, scheduledTime := r.sched }
  if r.queue.isEmpty then
    if s1.isStreamComplete then
      (r.played, { s1 with isPlaying := false, checkInterval := false })
    else
      (r.played, { s1 with checkInterval := true })
  else
    (r.played, s1)

/-- `AudioStreamer.addPCM16` (non-throwing path): clear the stream-complete
flag, decode the chunk, append `bufferSize`-sample frames and then any
nonempty remainder to the queue, and if not yet playing, set
`scheduledTime := now + initialBufferTime` and run the scheduling loop. -/
def addPCM16 (now : ℚ) (chunk : List ℕ) (s : StreamerState) :
    List SchedBuffer × StreamerState :=
  let s0 := { s with isStreamComplete := false }
  let s1 := { s0 with audioQueue := s0.audioQueue ++ chunkFrames (pcmToFloats chunk) }
  if s1.isPlaying then ([], s1)
  else
    scheduleNextBuffer now
      { s1 with isPlaying := true, scheduledTime := now + initialBufferTime }

/-- `AudioStreamer.stop`: stop playing, mark the stream complete, clear the
queue, reset the scheduled clock to the current audio clock, and clear the
polling interval. (The gain fade and the delayed gain-node rebuild touch
only the output nodes, not this state.) -/
def stop (now : ℚ) (s : StreamerState) : StreamerState :=
  { s with isPlaying := false, isStreamComplete := true, audioQueue := [],
           scheduledTime := now, checkInterval := false }

/-- `AudioStreamer.attemptRecovery`: increment the retry counter. Within
the budget (`retryCount <= maxRetries`): call `stop()`, rebuild the gain
node, reset the playing flags, re-prime the scheduled clock, and if the
queue is nonempty re-arm scheduling — the source checks
`this.audioQueue.length > 0` only after `stop()` has already cleared the
queue, so that branch is dead; the model keeps it verbatim. Beyond the
budget: only log the fatal message (returned flag `true`); no state other
than the counter changes. -/
def attemptRecovery (now : ℚ) (s : StreamerState) : StreamerState × Bool :=
  let s0 := { s with retryCount := s.retryCount + 1 }
  if s0.retryCount ≤ maxRetries then
    let s1 := stop now s0
    let s2 := { s1 with isPlaying := false, isStreamComplete := false,
                        scheduledTime := now + initialBufferTime }
    if 0 < s2.audioQueue.length then
      ((scheduleNextBuffer now { s2 with isPlaying := true }).2, false)
    else
      (s2, false)
  else (s0, true)

/-- A run of consecutive processing failures, each funneled through
`attemptRecovery`, counting how many times the fatal
max-recovery-attempts-reached error is emitted. -/
def runFailures (now : ℚ) : ℕ → StreamerState → StreamerState × ℕ
  | 0, s => (s, 0)
  | k + 1, s =>
    let r := attemptRecovery now s
    let rest := runFailures now k r.1
    (rest.1, (if r.2 then 1 else 0) + rest.2)

/-- A sequence of `addPCM16` calls viewed only through the frames each call
appends to the playback queue. -/
def deliverCalls (calls : List (List ℕ)) : List (List ℚ) :=
  (calls.map fun c => chunkFrames (pcmToFloats c)).flatten

/-- The three-chunk scenario: three consecutive `addPCM16` calls at clock
`t0` against a fresh streamer (the first call starts playback and runs one
scheduling pass; the later two only enqueue, since `isPlaying` is already
set), then the 100 ms polling-interval tick fires a scheduling pass at
clock `t1`, and the one-shot timeout it leaves behind fires another at
clock `t2`. Returns all buffers started, in order, and the final state. -/
def threeChunkRun (t0 t1 t2 : ℚ) (c1 c2 c3 : List ℕ) :
    List SchedBuffer × StreamerState :=
  let r1 := addPCM16 t0 c1 initStreamer
  let r2 := addPCM16 t0 c2 r1.2
  let r3 := addPCM16 t0 c3 r2.2
  let r4 := scheduleNextBuffer t1 r3.2
  let r5 := scheduleNextBuffer t2 r4.2
  (r1.1 ++ r2.1 ++ r3.1 ++ r4.1 ++ r5.1, r5.2)

/-! ### Capture bridge (`AudioRecorder`, src/lib/audio-recorder.ts)

The control-flow skeleton of `start()`/`stop()`. `start()` assigns
`this.starting = new Promise(...)` unconditionally — there is no guard on
an already in-flight start — and the executor synchronously calls
`navigator.mediaDevices.getUserMedia`, so every `start()` call initiates
one device acquisition. `stop()` checks `this.starting`: if a start is in
flight it defers its teardown via `this.starting.then(handleStop)`,
otherwise it tears down immediately. The promise's `finally` clears
`this.starting` before deferred `then`-handlers run. `acquisitions` counts
`getUserMedia` calls and `trackStops` counts teardowns that actually stop a
held hardware track. -/

structure RecorderState where
  starting : Bool
  pendingStop : Bool
  stream : Bool
  recording : Bool
  acquisitions : ℕ
  trackStops : ℕ
deriving DecidableEq, Repr

/-- A fresh `AudioRecorder`: nothing in flight, nothing held. -/
def initRecorder : RecorderState :=
  { starting := false, pendingStop := false, stream := false, recording := false,
    acquisitions := 0, trackStops := 0 }

/-- The synchronous part of `start()`: record the in-flight promise and
initiate one device acquisition. -/
def startCall (s : RecorderState) : RecorderState :=
  { s with starting := true, acquisitions := s.acquisitions + 1 }

/-- `handleStop` from `stop()`: disconnect, stop the hardware tracks of the
held stream if any, drop the handles, clear the recording flag. -/
def handleStop (s : RecorderState) : RecorderState :=
  { s with trackStops := s.trackStops + (if s.stream then 1 else 0),
           stream := false, recording := false }

/-- Successful settlement of the in-flight start: the stream handle and
worklets are installed, `recording := true`, `finally` clears `starting`,
then any stop deferred on that promise runs. -/
def startResolve (s : RecorderState) : RecorderState :=
  if s.starting then
    if s.pendingStop then
      handleStop { s with stream := true, recording := true, starting := false,
                          pendingStop := false }
    else { s with stream := true, recording := true, starting := false }
  else s

/-- Failed settlement of the in-flight start (`getUserMedia` rejected
before `this.stream` was assigned): `finally` clears `starting`, then any
deferred stop runs against the unchanged handles. -/
def startReject (s : RecorderState) : RecorderState :=
  if s.starting then
    if s.pendingStop then
      handleStop { s with starting := false, pendingStop := false }
    else { s with starting := false }
  else s

/-- `stop()`: defer behind an in-flight start, else tear down now. -/
def stopCall (s : RecorderState) : RecorderState :=
  if s.starting then { s with pendingStop := true } else handleStop s

/-- The spec's name for the typed failure of `start()` when microphone
permission is denied or no device is present. -/
inductive CaptureError where
  | hardwareAccess
deriving DecidableEq, Repr

/-- `start()` on a bridge whose device acquisition is denied: the call
synchronously begins the acquisition, `getUserMedia` rejects, and the
returned promise rejects with the access error. -/
def startDenied (s : RecorderState) : RecorderState × Option CaptureError :=
  (startReject (startCall s), some CaptureError.hardwareAccess)

/-! ### base64 decoding (`base64ToArrayBuffer`, src/lib/audio-utils.ts)

`window.atob` implements the WHATWG forgiving-base64 decode: strip ASCII
whitespace; if the length is a multiple of 4, drop up to two trailing `=`;
fail if the remaining length is 1 mod 4 or any character is outside the
base64 alphabet; otherwise emit 8-bit bytes from the 6-bit digits,
discarding leftover bits of a trailing 2- or 3-digit group. The source
wraps `atob` in try/catch and returns an empty buffer on failure. -/

def isB64Ws (c : Char) : Bool :=
  c.toNat == 9 || c.toNat == 10 || c.toNat == 12 || c.toNat == 13 || c.toNat == 32

def b64Val (c : Char) : Option ℕ :=
  if 65 ≤ c.toNat ∧ c.toNat ≤ 90 then some (c.toNat - 65)
  else if 97 ≤ c.toNat ∧ c.toNat ≤ 122 then some (c.toNat - 97 + 26)
  else if 48 ≤ c.toNat ∧ c.toNat ≤ 57 then some (c.toNat - 48 + 52)
  else if c.toNat = 43 then some 62
  else if c.toNat = 47 then some 63
  else none

/-- Drop up to two trailing `=` when the length is a multiple of 4. -/
def stripPadding (l : List Char) : List Char :=
  if l.length % 4 = 0 then
    match l.reverse with
    | '=' :: '=' :: rest => rest.reverse
    | '=' :: rest => rest.reverse
    | _ => l
  else l

/-- Map every character to its 6-bit value; fail on any foreign character. -/
def b64Vals : List Char → Option (List ℕ)
  | [] => some []
  | c :: rest =>
    match b64Val c, b64Vals rest with
    | some v, some vs => some (v :: vs)
    | _, _ => none

/-- Reassemble 6-bit digits into bytes; a single leftover digit is the
length-1-mod-4 error, two leftover digits give one byte, three give two. -/
def b64Bytes : List ℕ → Option (List ℕ)
  | [] => some []
  | [_] => none
  | [a, b] => some [a * 4 + b / 16]
  | [a, b, c] => some [a * 4 + b / 16, b % 16 * 16 + c / 4]
  | a :: b :: c :: d :: rest =>
    match b64Bytes rest with
    | some bs => some ((a * 4 + b / 16) :: (b % 16 * 16 + c / 4) :: (c % 4 * 64 + d) :: bs)
    | none => none

/-- `window.atob` (forgiving-base64 decode), `none` modelling the thrown
`InvalidCharacterError`. -/
def atob (s : List Char) : Option (List ℕ) :=
  match b64Vals (stripPadding (s.filter fun c => !isB64Ws c)) with
  | some vs => b64Bytes vs
  | none => none

/-- `base64ToArrayBuffer` (src/lib/audio-utils.ts): decode via `atob` and
copy the code units into a byte buffer; on any decode error, catch it and
return the empty buffer. -/
def base64ToArrayBuffer (s : List Char) : List ℕ :=
  match atob s with
  | some bs => bs
  | none => []

end Onboard

open Onboard

lemma clamp_le_one (x : ℚ) : clamp x ≤ 1 := by
  unfold clamp
  exact max_le (by norm_num) (min_le_left _ _)

lemma neg_one_le_clamp (x : ℚ) : -1 ≤ clamp x := le_max_left _ _

lemma clamp_of_mem (x : ℚ) (h1 : -1 ≤ x) (h2 : x ≤ 1) : clamp x = x := by
  unfold clamp
  rw [min_eq_right h2, max_eq_right h1]

lemma clamp_idem (x : ℚ) : clamp (clamp x) = clamp x :=
  clamp_of_mem _ (neg_one_le_clamp x) (clamp_le_one x)

lemma floatToInt16_clamp (x : ℚ) : floatToInt16 (clamp x) = floatToInt16 x := by
  unfold floatToInt16
  rw [clamp_idem]

/-- Quantization error bound for one in-range sample: at most `2/32768 = 1/16384`.
The negative branch (scale 32768, decode 32768) stays within `1/32768`; the
non-negative branch (scale 32767, decode 32768) can reach up to `2/32768`. -/
lemma roundTripSample_close (x : ℚ) (h1 : -1 ≤ x) (h2 : x ≤ 1) :
    |x - roundTripSample x| ≤ 1 / 16384 := by
  have hc : clamp x = x := clamp_of_mem x h1 h2
  unfold roundTripSample floatToInt16 int16ToFloat
  rw [hc]
  by_cases hx : x < 0
  · have hv : ¬ (0 ≤ x * 32768) := by nlinarith
    simp only [if_pos hx, truncQ, if_neg hv]
    have hf1 : ((⌊-(x * 32768)⌋ : ℤ) : ℚ) ≤ -(x * 32768) := Int.floor_le _
    have hf2 : -(x * 32768) < (⌊-(x * 32768)⌋ : ℤ) + 1 := Int.lt_floor_add_one _
    rw [abs_le]
    push_cast
    constructor <;> nlinarith
  · push_neg at hx
    have hv : 0 ≤ x * 32767 := by nlinarith
    simp only [if_neg (not_lt.mpr hx), truncQ, if_pos hv]
    have hf1 : ((⌊x * 32767⌋ : ℤ) : ℚ) ≤ x * 32767 := Int.floor_le _
    have hf2 : x * 32767 < (⌊x * 32767⌋ : ℤ) + 1 := Int.lt_floor_add_one _
    rw [abs_le]
    constructor <;> nlinarith

/-- C2 (counterexample): the round-trip error is NOT within 1/32768 for every
in-range Float32 sample. At `x = 65533/65536` (exactly representable in
Float32, and all source arithmetic on it is exact), the capture codec stores
`trunc(65533/65536 * 32767) = 32765` and playback decodes `32765/32768`,
giving an error of `3/65536 > 1/32768`. -/
theorem c2_roundtrip_counterexample :
    (-1 ≤ (65533/65536 : ℚ) ∧ (65533/65536 : ℚ) ≤ 1) ∧
      1/32768 < |(65533/65536 : ℚ) - Onboard.roundTripSample (65533/65536)| := by
  have hx1 : (-1 : ℚ) ≤ 65533/65536 := by norm_num
  have hx2 : (65533/65536 : ℚ) ≤ 1 := by norm_num
  have hclamp : Onboard.clamp (65533/65536) = 65533/65536 :=
    clamp_of_mem _ hx1 hx2
  have hfloor : ⌊(65533/65536 : ℚ) * 32767⌋ = 32765 := by
    rw [Int.floor_eq_iff]
    constructor <;> norm_num
  have hval : Onboard.roundTripSample (65533/65536) = 32765/32768 := by
    unfold Onboard.roundTripSample Onboard.floatToInt16 Onboard.int16ToFloat Onboard.truncQ
    rw [hclamp, if_neg (by norm_num), if_pos (by norm_num), hfloor]
    norm_num
  refine ⟨⟨hx1, hx2⟩, ?_⟩
  rw [hval, abs_of_pos (by norm_num)]
  norm_num

/-- C2 (amended): for every Float32 sample array whose samples all lie in
[-1, 1], applying the capture codec then the playback codec yields per-sample
values within 2/32768 (= 1/16384) of the original; samples outside [-1, 1]
are clamped to plus-or-minus 1 before conversion (conversion of `y` equals
conversion of `clamp y`). -/
theorem c2_roundtrip_amended (xs : List ℚ) (h : ∀ x ∈ xs, -1 ≤ x ∧ x ≤ 1) :
    List.Forall₂ (fun a b => |a - b| ≤ 1/16384) xs (xs.map Onboard.roundTripSample) ∧
      ∀ y : ℚ, Onboard.floatToInt16 (Onboard.clamp y) = Onboard.floatToInt16 y := by
  constructor
  · induction xs with
    | nil => simp
    | cons a tl ih =>
      simp only [List.map_cons, List.forall₂_cons]
      refine ⟨?_, ih fun x hx => h x (List.mem_cons_of_mem a hx)⟩
      have := h a (List.mem_cons_self a tl)
      exact roundTripSample_close a this.1 this.2
  · exact floatToInt16_clamp

/-- C2 witness: instantiation at the singleton array `[1/2]`. -/
theorem c2_roundtrip_amended_witness :
    List.Forall₂ (fun a b => |a - b| ≤ 1/16384) [(1/2 : ℚ)]
        ([(1/2 : ℚ)].map Onboard.roundTripSample) ∧
      ∀ y : ℚ, Onboard.floatToInt16 (Onboard.clamp y) = Onboard.floatToInt16 y :=
  c2_roundtrip_amended [(1/2 : ℚ)] (by norm_num)

lemma schedLoop_nil (clock : ℕ → ℚ) (i : ℕ) (t : ℚ) :
    Onboard.schedLoop clock i [] t = ⟨[], [], t⟩ := rfl

lemma schedLoop_cons_of_lt (clock : ℕ → ℚ) (i : ℕ) (f : List ℚ) (rest : List (List ℚ))
    (t : ℚ) (hc : t < clock i + Onboard.scheduleAheadTime) :
    Onboard.schedLoop clock i (f :: rest) t =
      ⟨⟨f, max t (clock i)⟩ ::
          (Onboard.schedLoop clock (i + 1) rest
            (max t (clock i) + Onboard.frameDuration f)).played,
        (Onboard.schedLoop clock (i + 1) rest
          (max t (clock i) + Onboard.frameDuration f)).queue,
        (Onboard.schedLoop clock (i + 1) rest
          (max t (clock i) + Onboard.frameDuration f)).sched⟩ := by
  simp only [Onboard.schedLoop]
  rw [if_pos hc]

lemma schedLoop_cons_of_le (clock : ℕ → ℚ) (i : ℕ) (f : List ℚ) (rest : List (List ℚ))
    (t : ℚ) (hc : clock i + Onboard.scheduleAheadTime ≤ t) :
    Onboard.schedLoop clock i (f :: rest) t = ⟨[], f :: rest, t⟩ := by
  simp only [Onboard.schedLoop]
  rw [if_neg (not_lt.mpr hc)]

/-- C1: for every buffer the playback scheduler starts, the chosen start
time is at or after the audio-clock reading of the very scheduling step
that starts it — for every queue, scheduled-clock value and clock history,
hence for every sequence and timing of `addPCM16` calls, including a
stalled consumer (scheduled clock far behind the audio clock). The source
guarantees it by `startTime = max(scheduledTime, currentTime)`. -/
theorem c1_start_never_behind_clock (clock : ℕ → ℚ) (i : ℕ) (q : List (List ℚ))
    (t : ℚ) (j : ℕ) (b : Onboard.SchedBuffer)
    (h : (Onboard.schedLoop clock i q t).played[j]? = some b) :
    clock (i + j) ≤ b.startTime := by
  induction q generalizing i t j with
  | nil => simp [schedLoop_nil] at h
  | cons f rest ih =>
    by_cases hc : t < clock i + Onboard.scheduleAheadTime
    · rw [schedLoop_cons_of_lt clock i f rest t hc] at h
      cases j with
      | zero =>
        simp only [List.getElem?_cons_zero, Option.some_inj] at h
        rw [← h]
        exact le_max_right t (clock i)
      | succ j =>
        simp only [List.getElem?_cons_succ] at h
        have := ih (i + 1) (max t (clock i) + Onboard.frameDuration f) j h
        have harith : i + 1 + j = i + (j + 1) := by omega
        rwa [harith] at this
    · rw [schedLoop_cons_of_le clock i f rest t (not_lt.mp hc)] at h
      simp at h

/-- C1 witness: a one-frame queue at scheduled time 0 with the audio clock
at 5 (a stalled consumer); the buffer is started at `max 0 5 = 5`, not in
the past. -/
theorem c1_start_never_behind_clock_witness :
    (fun _ => (5:ℚ)) (0 + 0) ≤ (Onboard.SchedBuffer.mk [0] (max 0 5)).startTime :=
  c1_start_never_behind_clock (fun _ => (5:ℚ)) 0 [[(0:ℚ)]] 0 0
    (Onboard.SchedBuffer.mk [0] (max 0 5))
    (by rw [schedLoop_cons_of_lt _ _ _ _ _ (by norm_num [Onboard.scheduleAheadTime])]
        simp)

lemma chunkFrames_of_small (buf : List ℚ) (h1 : 0 < buf.length)
    (h2 : buf.length < Onboard.bufferSize) :
    Onboard.chunkFrames buf = [buf] := by
  rw [Onboard.chunkFrames]
  rw [dif_neg (by omega), if_pos h1]

lemma chunkFrames_flatten (buf : List ℚ) : (Onboard.chunkFrames buf).flatten = buf := by
  induction buf using Onboard.chunkFrames.induct with
  | case1 buf h ih =>
    rw [Onboard.chunkFrames, dif_pos h]
    simp [ih]
  | case2 buf h hpos =>
    rw [Onboard.chunkFrames, dif_neg h, if_pos hpos]
    simp
  | case3 buf h hpos =>
    rw [Onboard.chunkFrames, dif_neg h, if_neg hpos]
    simp at hpos
    simp [hpos]

lemma pcmToFloats_append : ∀ (a b : List ℕ), a.length % 2 = 0 →
    Onboard.pcmToFloats (a ++ b) = Onboard.pcmToFloats a ++ Onboard.pcmToFloats b
  | [], _, _ => by simp [Onboard.pcmToFloats]
  | [_], _, h => by simp at h
  | lo :: hi :: rest, b, h => by
    have hr : rest.length % 2 = 0 := by
      simp only [List.length_cons] at h
      omega
    simp [Onboard.pcmToFloats, pcmToFloats_append rest b hr]

lemma addPCM16_playing (now : ℚ) (chunk : List ℕ) (s : Onboard.StreamerState)
    (h : s.isPlaying = true) :
    Onboard.addPCM16 now chunk s =
      ([], { s with isStreamComplete := false,
                    audioQueue :=
                      s.audioQueue ++ Onboard.chunkFrames (Onboard.pcmToFloats chunk) }) := by
  simp [Onboard.addPCM16, h]

/-- C3 (counterexample): chunking invariance fails at the level of frames.
Delivering the 4 bytes `[0,0,0,0]` as one `addPCM16` call queues one
2-sample frame, while delivering the same bytes as two 2-byte calls queues
two 1-sample frames: the queued frame sequences differ (each call flushes
its remainder as its own short frame). The receiving streamer is already
playing, so both runs only append to the queue. -/
theorem c3_chunking_counterexample :
    ([0, 0] ++ [0, 0] = [0, 0, 0, 0]) ∧
      (Onboard.addPCM16 0 [0, 0, 0, 0]
            { Onboard.initStreamer with isPlaying := true }).2.audioQueue ≠
        (Onboard.addPCM16 0 [0, 0]
            ((Onboard.addPCM16 0 [0, 0]
              { Onboard.initStreamer with isPlaying := true }).2)).2.audioQueue := by
  refine ⟨rfl, ?_⟩
  have hx : Onboard.pcmToFloats [0, 0, 0, 0] =
      [Onboard.int16ToFloat (Onboard.int16OfBytes 0 0),
        Onboard.int16ToFloat (Onboard.int16OfBytes 0 0)] := rfl
  have hy : Onboard.pcmToFloats [0, 0] =
      [Onboard.int16ToFloat (Onboard.int16OfBytes 0 0)] := rfl
  have hc4 : Onboard.chunkFrames (Onboard.pcmToFloats [0, 0, 0, 0]) =
      [Onboard.pcmToFloats [0, 0, 0, 0]] :=
    chunkFrames_of_small (Onboard.pcmToFloats [0, 0, 0, 0])
      (by rw [hx]; simp) (by rw [hx]; simp [Onboard.bufferSize])
  have hc2 : Onboard.chunkFrames (Onboard.pcmToFloats [0, 0]) =
      [Onboard.pcmToFloats [0, 0]] :=
    chunkFrames_of_small (Onboard.pcmToFloats [0, 0])
      (by rw [hy]; simp) (by rw [hy]; simp [Onboard.bufferSize])
  have h4 : (Onboard.addPCM16 0 [0, 0, 0, 0]
      { Onboard.initStreamer with isPlaying := true }).2.audioQueue =
      [Onboard.pcmToFloats [0, 0, 0, 0]] := by
    rw [addPCM16_playing 0 [0, 0, 0, 0] _ rfl]
    simp [Onboard.initStreamer, hc4]
  have h2 : (Onboard.addPCM16 0 [0, 0]
      ((Onboard.addPCM16 0 [0, 0]
        { Onboard.initStreamer with isPlaying := true }).2)).2.audioQueue =
      [Onboard.pcmToFloats [0, 0], Onboard.pcmToFloats [0, 0]] := by
    rw [addPCM16_playing 0 [0, 0] _ rfl]
    rw [addPCM16_playing 0 [0, 0] _ rfl]
    simp [Onboard.initStreamer, hc2]
  rw [h4, h2]
  intro hcontra
  have := congrArg List.length hcontra
  simp at this

/-- C3 (amended): chunking invariance holds for the decoded sample stream,
not for frame boundaries: for any way of splitting the bytes into
even-length `addPCM16` calls, the concatenation of all queued frames is the
decoded sample sequence of the concatenated bytes — same samples, same
order, same total count. Frame boundaries depend on call boundaries,
because each call flushes its remainder as a short frame. -/
theorem c3_chunking_amended (calls : List (List ℕ))
    (h : ∀ c ∈ calls, c.length % 2 = 0) :
    (Onboard.deliverCalls calls).flatten = Onboard.pcmToFloats calls.flatten := by
  induction calls with
  | nil => simp [Onboard.deliverCalls, Onboard.pcmToFloats]
  | cons c tl ih =>
    have hc : c.length % 2 = 0 := h c (List.mem_cons_self c tl)
    have htl : ∀ x ∈ tl, x.length % 2 = 0 := fun x hx => h x (List.mem_cons_of_mem c hx)
    simp only [Onboard.deliverCalls, List.map_cons, List.flatten_cons, List.flatten_append]
    rw [chunkFrames_flatten, pcmToFloats_append c tl.flatten hc]
    exact congrArg (Onboard.pcmToFloats c ++ ·) (ih htl)

/-- C3 witness: the two-call split of the counterexample instantiates the
amended invariant. -/
theorem c3_chunking_amended_witness :
    (Onboard.deliverCalls [[0, 0], [0, 0]]).flatten =
      Onboard.pcmToFloats [[0, 0], [0, 0]].flatten :=
  c3_chunking_amended [[0, 0], [0, 0]] (by decide)

/-- C6: after `stop()` the queue is empty, the scheduled clock equals the
current audio clock, the stream is marked complete, and a subsequent
scheduling pass (at any later clock reading) starts no buffer — even when
`addPCM16` ran immediately before the `stop()`. -/
theorem c6_stop_clears_everything (now tAdd t : ℚ) (chunk : List ℕ)
    (s : Onboard.StreamerState) (_heven : chunk.length % 2 = 0) :
    (Onboard.stop now (Onboard.addPCM16 tAdd chunk s).2).audioQueue = [] ∧
      (Onboard.stop now (Onboard.addPCM16 tAdd chunk s).2).scheduledTime = now ∧
      (Onboard.stop now (Onboard.addPCM16 tAdd chunk s).2).isStreamComplete = true ∧
      (Onboard.scheduleNextBuffer t
        (Onboard.stop now (Onboard.addPCM16 tAdd chunk s).2)).1 = [] := by
  refine ⟨rfl, rfl, rfl, ?_⟩
  simp [Onboard.scheduleNextBuffer, Onboard.stop, schedLoop_nil]

/-- C6 witness: a fresh streamer receives one 2-byte chunk at time 1 and is
stopped at time 2. -/
theorem c6_stop_clears_everything_witness :
    (Onboard.stop 2 (Onboard.addPCM16 1 [0, 0] Onboard.initStreamer).2).audioQueue = [] ∧
      (Onboard.stop 2 (Onboard.addPCM16 1 [0, 0] Onboard.initStreamer).2).scheduledTime = 2 ∧
      (Onboard.stop 2 (Onboard.addPCM16 1 [0, 0] Onboard.initStreamer).2).isStreamComplete = true ∧
      (Onboard.scheduleNextBuffer 3
        (Onboard.stop 2 (Onboard.addPCM16 1 [0, 0] Onboard.initStreamer).2)).1 = [] :=
  c6_stop_clears_everything 2 1 3 [0, 0] Onboard.initStreamer rfl

lemma attemptRecovery_retryCount (now : ℚ) (s : Onboard.StreamerState) :
    (Onboard.attemptRecovery now s).1.retryCount = s.retryCount + 1 := by
  unfold Onboard.attemptRecovery
  by_cases h : s.retryCount + 1 ≤ Onboard.maxRetries
  · rw [if_pos h]
    simp [Onboard.stop]
  · rw [if_neg h]

lemma runFailures_count (now : ℚ) : ∀ (k : ℕ) (s : Onboard.StreamerState),
    (Onboard.runFailures now k s).2 =
      (s.retryCount + k) - max s.retryCount Onboard.maxRetries
  | 0, s => by
    simp only [Onboard.runFailures, Nat.add_zero]
    exact (Nat.sub_eq_zero_of_le (le_max_left _ _)).symm
  | k + 1, s => by
    have hrc := attemptRecovery_retryCount now s
    have hfatal : (Onboard.attemptRecovery now s).2 =
        decide (Onboard.maxRetries < s.retryCount + 1) := by
      unfold Onboard.attemptRecovery
      by_cases h : s.retryCount + 1 ≤ Onboard.maxRetries
      · rw [if_pos h]
        simp [Onboard.stop, decide_eq_false (not_lt.mpr h)]
      · rw [if_neg h]
        simp [decide_eq_true (not_le.mp h)]
    simp only [Onboard.runFailures]
    rw [runFailures_count now k (Onboard.attemptRecovery now s).1, hrc, hfatal]
    rcases le_or_lt (s.retryCount + 1) Onboard.maxRetries with h | h
    · rw [decide_eq_false (not_lt.mpr h), max_eq_right h,
        max_eq_right (le_trans (Nat.le_succ _) h)]
      simp
      omega
    · rw [decide_eq_true h, max_eq_left (le_of_lt h),
        max_eq_left (by omega : Onboard.maxRetries ≤ s.retryCount)]
      simp
      omega

/-- C4 (counterexample): with the configured maximum `maxRetries = 3`, three
consecutive processing failures — N equal to the configured maximum — emit
zero fatal errors, not exactly one: the source logs the fatal message only
once `retryCount` strictly exceeds `maxRetries`. -/
theorem c4_exhaustion_counterexample :
    (Onboard.runFailures 0 Onboard.maxRetries Onboard.initStreamer).2 = 0 ∧
      (0 : ℕ) ≠ 1 := by
  constructor
  · rw [runFailures_count]
    simp [Onboard.initStreamer]
  · decide

/-- C4 (amended): starting from a zero retry counter, `k` consecutive
failures emit `k - maxRetries` fatal errors: none until the budget is
exceeded, the first on failure `maxRetries + 1`, and one more on every
further failure (repeated failures DO emit repeated fatal errors). Once
the budget is exceeded a failure changes nothing but the counter — no
recovery is attempted — and emits the fatal error again. -/
theorem c4_exhaustion_amended (now : ℚ) (k : ℕ) (s : Onboard.StreamerState)
    (h : s.retryCount = 0) :
    (Onboard.runFailures now k s).2 = k - Onboard.maxRetries ∧
      ∀ u : Onboard.StreamerState, Onboard.maxRetries ≤ u.retryCount →
        Onboard.attemptRecovery now u = ({ u with retryCount := u.retryCount + 1 }, true) := by
  constructor
  · rw [runFailures_count, h]
    simp
  · intro u hu
    unfold Onboard.attemptRecovery
    rw [if_neg (by simp only []; omega)]

/-- C4 witness: five consecutive failures from a fresh streamer emit two
fatal errors (on failures four and five). -/
theorem c4_exhaustion_amended_witness :
    (Onboard.runFailures 0 5 Onboard.initStreamer).2 = 5 - Onboard.maxRetries ∧
      ∀ u : Onboard.StreamerState, Onboard.maxRetries ≤ u.retryCount →
        Onboard.attemptRecovery 0 u = ({ u with retryCount := u.retryCount + 1 }, true) :=
  c4_exhaustion_amended 0 5 Onboard.initStreamer rfl

/-- C5 (code bug): a recovery attempt within the retry budget drops every
queued frame. `attemptRecovery` calls `stop()`, which sets
`audioQueue = []`, and only afterwards checks `audioQueue.length > 0` to
re-arm scheduling — that check is dead code, so the frames the spec says
must survive recovery are discarded, and no buffer is rescheduled. -/
theorem c5_recovery_drops_frames (now : ℚ) (s : Onboard.StreamerState)
    (hbudget : s.retryCount + 1 ≤ Onboard.maxRetries) (_hq : s.audioQueue ≠ []) :
    (Onboard.attemptRecovery now s).1.audioQueue = [] ∧
      (Onboard.attemptRecovery now s).2 = false := by
  unfold Onboard.attemptRecovery
  rw [if_pos (by simp only []; omega)]
  simp [Onboard.stop]

/-- C5 witness: a streamer holding one queued frame, first failure. -/
theorem c5_recovery_drops_frames_witness :
    (Onboard.attemptRecovery 0
        { Onboard.initStreamer with audioQueue := [[0]] }).1.audioQueue = [] ∧
      (Onboard.attemptRecovery 0
        { Onboard.initStreamer with audioQueue := [[0]] }).2 = false :=
  c5_recovery_drops_frames 0 { Onboard.initStreamer with audioQueue := [[0]] }
    (by simp [Onboard.initStreamer, Onboard.maxRetries]) (by simp)

/-- C7 (counterexample): two overlapping `start()` calls acquire the
microphone twice, not once. After the first call a start is still in
flight (`starting = true`), and the second call — the source has no guard
returning the in-flight promise — initiates a second `getUserMedia`
acquisition: the acquisition count is 2, not 1. -/
theorem c7_single_acquisition_counterexample :
    (Onboard.startCall Onboard.initRecorder).starting = true ∧
      (Onboard.startCall (Onboard.startCall Onboard.initRecorder)).acquisitions = 2 ∧
      ¬ (Onboard.startCall (Onboard.startCall Onboard.initRecorder)).acquisitions = 1 := by
  decide

/-- C7 (amended): overlapping `start()` calls each initiate their own
device acquisition (two calls, two acquisitions) — the in-flight promise
is overwritten, not shared. The second half of the claim holds: `stop()`
issued before a pending `start()` has resolved defers its teardown behind
that start, yielding exactly one acquisition and exactly one hardware-track
teardown, with no stream handle or recording flag left behind. -/
theorem c7_stop_before_start_amended :
    (Onboard.startCall (Onboard.startCall Onboard.initRecorder)).acquisitions = 2 ∧
      (Onboard.startResolve (Onboard.stopCall
        (Onboard.startCall Onboard.initRecorder))).acquisitions = 1 ∧
      (Onboard.startResolve (Onboard.stopCall
        (Onboard.startCall Onboard.initRecorder))).trackStops = 1 ∧
      (Onboard.startResolve (Onboard.stopCall
        (Onboard.startCall Onboard.initRecorder))).stream = false ∧
      (Onboard.startResolve (Onboard.stopCall
        (Onboard.startCall Onboard.initRecorder))).recording = false := by
  decide

/-- C8: when device access is denied, `start()` fails with the typed
hardware-access error and leaves the bridge idle: no stream handle, no
recording, no start in flight — no partial audio graph, for any bridge
that held no stream and had no pending stop. -/
theorem c8_denied_start_leaves_idle (s : Onboard.RecorderState)
    (h1 : s.stream = false) (h2 : s.recording = false) (h3 : s.pendingStop = false) :
    (Onboard.startDenied s).2 = some Onboard.CaptureError.hardwareAccess ∧
      (Onboard.startDenied s).1.stream = false ∧
      (Onboard.startDenied s).1.recording = false ∧
      (Onboard.startDenied s).1.starting = false := by
  unfold Onboard.startDenied Onboard.startReject Onboard.startCall
  simp [h1, h2, h3]

/-- C8 witness: denial on a fresh bridge. -/
theorem c8_denied_start_leaves_idle_witness :
    (Onboard.startDenied Onboard.initRecorder).2 =
        some Onboard.CaptureError.hardwareAccess ∧
      (Onboard.startDenied Onboard.initRecorder).1.stream = false ∧
      (Onboard.startDenied Onboard.initRecorder).1.recording = false ∧
      (Onboard.startDenied Onboard.initRecorder).1.starting = false :=
  c8_denied_start_leaves_idle Onboard.initRecorder rfl rfl rfl

/-- C10: `base64ToArrayBuffer` is total at the public boundary: every
input yields a buffer (the decoded bytes when `atob` succeeds), and any
string `atob` rejects yields the empty buffer instead of a propagated
decode error — malformed transport payloads become zero samples of audio. -/
theorem c10_base64_total (s : List Char) :
    (∃ bs : List ℕ, Onboard.base64ToArrayBuffer s = bs) ∧
      (Onboard.atob s = none → Onboard.base64ToArrayBuffer s = []) ∧
      ∀ bs : List ℕ, Onboard.atob s = some bs → Onboard.base64ToArrayBuffer s = bs := by
  refine ⟨⟨Onboard.base64ToArrayBuffer s, rfl⟩, ?_, ?_⟩
  · intro h
    simp [Onboard.base64ToArrayBuffer, h]
  · intro bs h
    simp [Onboard.base64ToArrayBuffer, h]

/-- C10 witness: the single-character string of a percent sign is not
valid base64 (its length is 1 mod 4 and the character is outside the
alphabet); the buffer returned is empty. -/
theorem c10_base64_total_witness :
    (∃ bs : List ℕ, Onboard.base64ToArrayBuffer [Char.ofNat 37] = bs) ∧
      (Onboard.atob [Char.ofNat 37] = none →
        Onboard.base64ToArrayBuffer [Char.ofNat 37] = []) ∧
      ∀ bs : List ℕ, Onboard.atob [Char.ofNat 37] = some bs →
        Onboard.base64ToArrayBuffer [Char.ofNat 37] = bs :=
  c10_base64_total [Char.ofNat 37]

lemma pcmToFloats_length : ∀ l : List ℕ, (Onboard.pcmToFloats l).length = l.length / 2
  | [] => rfl
  | [_] => by simp [Onboard.pcmToFloats]
  | _ :: _ :: rest => by
    simp only [Onboard.pcmToFloats, List.length_cons, pcmToFloats_length rest]
    omega

lemma frameDuration_of_2400 (f : List ℚ) (h : f.length = 2400) :
    Onboard.frameDuration f = 1/10 := by
  unfold Onboard.frameDuration Onboard.sampleRate
  rw [h]
  norm_num

lemma addPCM16_not_playing (now : ℚ) (chunk : List ℕ) (s : Onboard.StreamerState)
    (h : s.isPlaying = false) :
    Onboard.addPCM16 now chunk s =
      Onboard.scheduleNextBuffer now
        { s with isStreamComplete := false,
                 audioQueue := s.audioQueue ++ Onboard.chunkFrames (Onboard.pcmToFloats chunk),
                 isPlaying := true, scheduledTime := now + Onboard.initialBufferTime } := by
  simp [Onboard.addPCM16, h]

lemma scheduleNextBuffer_one (now t : ℚ) (f : List ℚ) (s : Onboard.StreamerState)
    (hq : s.audioQueue = [f]) (hs : s.scheduledTime = t)
    (hcomp : s.isStreamComplete = false)
    (hdur : Onboard.frameDuration f = 1/10)
    (hlt : t < now + Onboard.scheduleAheadTime) (hge : now ≤ t) :
    Onboard.scheduleNextBuffer now s =
      ([⟨f, t⟩],
        { s with audioQueue := [], checkInterval := true,
                 scheduledTime := t + 1/10 }) := by
  unfold Onboard.scheduleNextBuffer
  rw [hq, hs, schedLoop_cons_of_lt _ _ _ _ _ (by simpa using hlt),
    max_eq_left hge, hdur, schedLoop_nil]
  simp [hcomp]

lemma scheduleNextBuffer_two_stop (now t : ℚ) (f g : List ℚ) (s : Onboard.StreamerState)
    (hq : s.audioQueue = [f, g]) (hs : s.scheduledTime = t)
    (hdur : Onboard.frameDuration f = 1/10)
    (hlt : t < now + Onboard.scheduleAheadTime) (hge : now ≤ t)
    (hstop : now + Onboard.scheduleAheadTime ≤ t + 1/10) :
    Onboard.scheduleNextBuffer now s =
      ([⟨f, t⟩], { s with audioQueue := [g], scheduledTime := t + 1/10 }) := by
  unfold Onboard.scheduleNextBuffer
  rw [hq, hs, schedLoop_cons_of_lt _ _ _ _ _ (by simpa using hlt),
    max_eq_left hge, hdur, schedLoop_cons_of_le _ _ _ _ _ (by simpa using hstop)]
  simp

lemma threeChunkRun_eval (t0 t1 t2 : ℚ) (c1 c2 c3 : List ℕ)
    (h1 : c1.length = 4800) (h2 : c2.length = 4800) (h3 : c3.length = 4800)
    (ht1 : t0 < t1) (ht2 : t1 ≤ t0 + 1/10) (ht3 : t0 + 1/10 < t2)
    (ht4 : t2 ≤ t0 + 3/10) :
    (Onboard.threeChunkRun t0 t1 t2 c1 c2 c3).1 =
      [⟨Onboard.pcmToFloats c1, t0 + 1/10⟩, ⟨Onboard.pcmToFloats c2, t0 + 2/10⟩,
        ⟨Onboard.pcmToFloats c3, t0 + 3/10⟩] ∧
      (Onboard.pcmToFloats c1).length = 2400 ∧
      (Onboard.pcmToFloats c2).length = 2400 ∧
      (Onboard.pcmToFloats c3).length = 2400 := by
  have hl1 : (Onboard.pcmToFloats c1).length = 2400 := by
    rw [pcmToFloats_length, h1]
  have hl2 : (Onboard.pcmToFloats c2).length = 2400 := by
    rw [pcmToFloats_length, h2]
  have hl3 : (Onboard.pcmToFloats c3).length = 2400 := by
    rw [pcmToFloats_length, h3]
  have hcf1 : Onboard.chunkFrames (Onboard.pcmToFloats c1) = [Onboard.pcmToFloats c1] :=
    chunkFrames_of_small _ (by rw [hl1]; norm_num)
      (by rw [hl1]; norm_num [Onboard.bufferSize])
  have hcf2 : Onboard.chunkFrames (Onboard.pcmToFloats c2) = [Onboard.pcmToFloats c2] :=
    chunkFrames_of_small _ (by rw [hl2]; norm_num)
      (by rw [hl2]; norm_num [Onboard.bufferSize])
  have hcf3 : Onboard.chunkFrames (Onboard.pcmToFloats c3) = [Onboard.pcmToFloats c3] :=
    chunkFrames_of_small _ (by rw [hl3]; norm_num)
      (by rw [hl3]; norm_num [Onboard.bufferSize])
  have hr1 : Onboard.addPCM16 t0 c1 Onboard.initStreamer =
      ([⟨Onboard.pcmToFloats c1, t0 + 1/10⟩],
        { audioQueue := [], isPlaying := true, isStreamComplete := false,
          checkInterval := true, scheduledTime := t0 + 1/10 + 1/10,
          retryCount := 0 }) := by
    rw [addPCM16_not_playing t0 c1 Onboard.initStreamer rfl]
    rw [scheduleNextBuffer_one t0 (t0 + 1/10) (Onboard.pcmToFloats c1) _
      (by simp [Onboard.initStreamer, hcf1])
      (by simp [Onboard.initialBufferTime])
      (by simp [Onboard.initStreamer])
      (frameDuration_of_2400 _ hl1)
      (by norm_num [Onboard.scheduleAheadTime])
      (by norm_num)]
    simp [Onboard.initStreamer]
  have hr2 : Onboard.addPCM16 t0 c2
      ({ audioQueue := [], isPlaying := true, isStreamComplete := false,
         checkInterval := true, scheduledTime := t0 + 1/10 + 1/10,
         retryCount := 0 } : Onboard.StreamerState) =
      ([], { audioQueue := [Onboard.pcmToFloats c2], isPlaying := true,
             isStreamComplete := false, checkInterval := true,
             scheduledTime := t0 + 1/10 + 1/10, retryCount := 0 }) := by
    rw [addPCM16_playing _ _ _ rfl]
    simp [hcf2]
  have hr3 : Onboard.addPCM16 t0 c3
      ({ audioQueue := [Onboard.pcmToFloats c2], isPlaying := true,
         isStreamComplete := false, checkInterval := true,
         scheduledTime := t0 + 1/10 + 1/10, retryCount := 0 } : Onboard.StreamerState) =
      ([], { audioQueue := [Onboard.pcmToFloats c2, Onboard.pcmToFloats c3],
             isPlaying := true, isStreamComplete := false, checkInterval := true,
             scheduledTime := t0 + 1/10 + 1/10, retryCount := 0 }) := by
    rw [addPCM16_playing _ _ _ rfl]
    simp [hcf3]
  have hr4 : Onboard.scheduleNextBuffer t1
      ({ audioQueue := [Onboard.pcmToFloats c2, Onboard.pcmToFloats c3],
         isPlaying := true, isStreamComplete := false, checkInterval := true,
         scheduledTime := t0 + 1/10 + 1/10, retryCount := 0 } : Onboard.StreamerState) =
      ([⟨Onboard.pcmToFloats c2, t0 + 1/10 + 1/10⟩],
        { audioQueue := [Onboard.pcmToFloats c3], isPlaying := true,
          isStreamComplete := false, checkInterval := true,
          scheduledTime := t0 + 1/10 + 1/10 + 1/10, retryCount := 0 }) := by
    rw [scheduleNextBuffer_two_stop t1 (t0 + 1/10 + 1/10)
      (Onboard.pcmToFloats c2) (Onboard.pcmToFloats c3) _ rfl rfl
      (frameDuration_of_2400 _ hl2)
      (by norm_num [Onboard.scheduleAheadTime]; linarith)
      (by linarith)
      (by norm_num [Onboard.scheduleAheadTime]; linarith)]
  have hr5 : Onboard.scheduleNextBuffer t2
      ({ audioQueue := [Onboard.pcmToFloats c3], isPlaying := true,
         isStreamComplete := false, checkInterval := true,
         scheduledTime := t0 + 1/10 + 1/10 + 1/10, retryCount := 0 } :
        Onboard.StreamerState) =
      ([⟨Onboard.pcmToFloats c3, t0 + 1/10 + 1/10 + 1/10⟩],
        { audioQueue := [], isPlaying := true, isStreamComplete := false,
          checkInterval := true, scheduledTime := t0 + 1/10 + 1/10 + 1/10 + 1/10,
          retryCount := 0 }) := by
    rw [scheduleNextBuffer_one t2 (t0 + 1/10 + 1/10 + 1/10)
      (Onboard.pcmToFloats c3) _ rfl rfl rfl
      (frameDuration_of_2400 _ hl3)
      (by norm_num [Onboard.scheduleAheadTime]; linarith)
      (by linarith)]
  refine ⟨?_, hl1, hl2, hl3⟩
  unfold Onboard.threeChunkRun
  rw [hr1]
  simp only []
  rw [hr2]
  simp only []
  rw [hr3]
  simp only []
  rw [hr4]
  simp only []
  rw [hr5]
  simp only [List.append_nil, List.nil_append, List.cons_append, List.append_assoc]
  norm_num [Onboard.SchedBuffer.mk.injEq]
  constructor <;> ring

/-- C9 (counterexample): three consecutive `addPCM16` calls of 4800 bytes
(100 ms at 24 kHz) do NOT queue fixed-size frames: each call decodes to
2400 samples, below the configured frame size `bufferSize = 7680`, so each
call's remainder path queues one short 2400-sample frame. The three
scheduled buffers carry 2400 samples each, and 2400 is not the fixed size. -/
theorem c9_three_chunks_counterexample :
    ((Onboard.threeChunkRun 0 (1/20) (1/5) (List.replicate 4800 0)
          (List.replicate 4800 0) (List.replicate 4800 0)).1.map
        fun b => b.samples.length) = [2400, 2400, 2400] ∧
      (2400 : ℕ) ≠ Onboard.bufferSize := by
  obtain ⟨hlist, hl1, hl2, hl3⟩ := threeChunkRun_eval 0 (1/20) (1/5)
    (List.replicate 4800 0) (List.replicate 4800 0) (List.replicate 4800 0)
    (by rw [List.length_replicate]) (by rw [List.length_replicate])
    (by rw [List.length_replicate])
    (by norm_num) (by norm_num) (by norm_num) (by norm_num)
  refine ⟨?_, by norm_num [Onboard.bufferSize]⟩
  rw [hlist]
  simp only [List.map_cons, List.map_nil, hl1, hl2, hl3]

/-- C9 (amended): three consecutive `addPCM16` calls, each carrying 100 ms
of 24 kHz audio (4800 bytes), queue three short 2400-sample frames (below
the configured 7680-sample frame size) in order, scheduled at
`t0 + initialBufferDelay`, `t0 + initialBufferDelay + 0.1 s` and
`t0 + initialBufferDelay + 0.2 s`: the scheduled clock starts at the
initial buffering delay and advances by exactly one frame duration
(0.1 s) per scheduled frame. `t1` is the polling tick that schedules the
second frame and `t2` the follow-up timeout that schedules the third, each
firing before the already-scheduled audio has been consumed. -/
theorem c9_three_chunks_amended (t0 t1 t2 : ℚ) (c1 c2 c3 : List ℕ)
    (h1 : c1.length = 4800) (h2 : c2.length = 4800) (h3 : c3.length = 4800)
    (ht1 : t0 < t1) (ht2 : t1 ≤ t0 + 1/10) (ht3 : t0 + 1/10 < t2)
    (ht4 : t2 ≤ t0 + 3/10) :
    (Onboard.threeChunkRun t0 t1 t2 c1 c2 c3).1 =
      [⟨Onboard.pcmToFloats c1, t0 + 1/10⟩, ⟨Onboard.pcmToFloats c2, t0 + 2/10⟩,
        ⟨Onboard.pcmToFloats c3, t0 + 3/10⟩] ∧
      (Onboard.pcmToFloats c1).length = 2400 ∧
      (Onboard.pcmToFloats c2).length = 2400 ∧
      (Onboard.pcmToFloats c3).length = 2400 :=
  threeChunkRun_eval t0 t1 t2 c1 c2 c3 h1 h2 h3 ht1 ht2 ht3 ht4

/-- C9 witness: the scenario at `t0 = 0` with the polling tick at 1/20 and
the timeout at 1/5, on three 4800-byte zero chunks. -/
theorem c9_three_chunks_amended_witness :
    (Onboard.threeChunkRun 0 (1/20) (1/5) (List.replicate 4800 0)
        (List.replicate 4800 0) (List.replicate 4800 0)).1 =
      [⟨Onboard.pcmToFloats (List.replicate 4800 0), 0 + 1/10⟩,
        ⟨Onboard.pcmToFloats (List.replicate 4800 0), 0 + 2/10⟩,
        ⟨Onboard.pcmToFloats (List.replicate 4800 0), 0 + 3/10⟩] ∧
      (Onboard.pcmToFloats (List.replicate 4800 0)).length = 2400 ∧
      (Onboard.pcmToFloats (List.replicate 4800 0)).length = 2400 ∧
      (Onboard.pcmToFloats (List.replicate 4800 0)).length = 2400 :=
  c9_three_chunks_amended 0 (1/20) (1/5) (List.replicate 4800 0)
    (List.replicate 4800 0) (List.replicate 4800 0)
    (by rw [List.length_replicate]) (by rw [List.length_replicate])
    (by rw [List.length_replicate])
    (by norm_num) (by norm_num) (by norm_num) (by norm_num)
